import Mathlib

/-!
Verification of the AIStore storage-target core against its natural-language
specification. Each Go function relevant to the checked claims is shallowly
embedded as an executable Lean definition; filesystem, clock and lock outcomes
that the Go code observes through syscalls are passed in explicitly as oracle
parameters, so every definition is a pure function of its inputs.

Sources embedded below:
 - cmn/cos error value (`ErrValue.Store` / `ErrValue.Err`)
 - ais target space trigger (`target.OOS` in tgtspace.go)
 - ais datapath fast-parse (`dpq.parse`)
 - xact sentinel protocol (`sentinel.qcb`, `checkSmap`, `rxDone`, `pending`)
 - transport bundle shared data mover (`sharedDM.recv`, `sharedDM.RegRecv`)
 - space cleanup jogger (`clnJ.visit`, `clnJ.visitCT`, `clnJ.visitObj`,
   `clnJ.rmAnyBatch`, `clnJ.rmLeftovers`, `clnP.rmMisplaced`)
-/

namespace AIS

/-! ## cos.ErrValue (cmn/cos)

Go source:
```
func (ea *ErrValue) Store(err error) {
    if ea.cnt.Inc() == 1 { ea.Value.Store(err) }
}
func (ea *ErrValue) Err() (err error) {
    err = ea._load()
    if err != nil {
        if cnt := ea.cnt.Load(); cnt > 1 { err = fmt.Errorf("%w (cnt=%d)", err, cnt) }
    }
    return
}
```
Errors are modelled as strings; `Store` is never called with a nil error in Go
(atomic.Value.Store(nil) panics), so the stored value is always a real error. -/

structure ErrValue where
  val : Option String
  cnt : Nat
deriving DecidableEq, Repr

def ErrValue.empty : ErrValue := { val := none, cnt := 0 }

/-- Go `ErrValue.Store`: increment the counter; store the error only on the first call. -/
def ErrValue.store (ea : ErrValue) (err : String) : ErrValue :=
  let c := ea.cnt + 1
  { cnt := c, val := if c = 1 then some err else ea.val }

/-- The error `Err()` reports: the first stored error, wrapped with the count
when more than one `Store` occurred. -/
inductive ErrReport where
  | plain (e : String)
  | counted (e : String) (cnt : Nat)
deriving DecidableEq, Repr

/-- Go `ErrValue.Err`. -/
def ErrValue.err (ea : ErrValue) : Option ErrReport :=
  match ea.val with
  | none => none
  | some e => if ea.cnt > 1 then some (.counted e ea.cnt) else some (.plain e)

/-- A whole sequence of `Store` calls, first call leftmost. -/
def ErrValue.storeAll (ea : ErrValue) (errs : List String) : ErrValue :=
  errs.foldl ErrValue.store ea

/-! ## target.OOS (ais/tgtspace.go)

```
func (t *target) OOS(csRefreshed *fs.CapStatus, config *cmn.Config, tcdf *fs.Tcdf) (cs fs.CapStatus) {
    if csRefreshed != nil { cs = *csRefreshed; errCap = cs.Err() }
    else { cs, err, errCap = fs.CapRefresh(config, tcdf); if err != nil { ...; return cs } }
    if errCap == nil { return cs }
    if prev := lastTrigOOS.Load(); mono.Since(prev) < minAutoDetectInterval { ...; return cs }
    if cs.IsOOS() { t.statsT.SetFlag(cos.NodeAlerts, cos.OOS) }
    else { t.statsT.SetFlag(cos.NodeAlerts, cos.LowCapacity) }
    go func() {
        cs2 := t.runSpaceCleanup(&xargs, nil)
        lastTrigOOS.Store(mono.NanoTime())
        if cs2.Err() != nil { ...; t.runLRU("", nil, false) }
    }()
    return cs
}
```
`fs.CapStatus` lives outside src/. Modelled from the spec: a capacity status
reports a capacity error (at/above watermark) and whether it is full-blown OOS
("Crossing high-wm sets the LowCapacity node-state flag; crossing OOS sets OOS"). -/

structure CapSt where
  /-- Go `cs.Err() != nil`: the capacity check reports a capacity error. -/
  errCap : Bool
  /-- Go `cs.IsOOS()`. -/
  isOOS : Bool
deriving DecidableEq, Repr

inductive SpaceAct where
  | setFlagOOS
  | setFlagLowCapacity
  | runCleanup
  | runLRU
deriving DecidableEq, Repr

/-- The body of `target.OOS` once the capacity status `cs` is in hand:
rate-limited auto-trigger that sets the node alert, runs cleanup, and runs LRU
only when `cs2` — the capacity status returned by `runSpaceCleanup` — still
reports a capacity error. -/
def oosGo (cs : CapSt) (sinceLast minIval : Int) (cs2 : CapSt) : List SpaceAct :=
  if !cs.errCap then []
  else if sinceLast < minIval then []
  else
    (if cs.isOOS then [SpaceAct.setFlagOOS] else [SpaceAct.setFlagLowCapacity])
      ++ [SpaceAct.runCleanup]
      ++ (if cs2.errCap then [SpaceAct.runLRU] else [])

/-- Go `target.OOS`: the sequence of space-management actions the trigger
performs.  `refreshed` is the optional caller-supplied `csRefreshed`;
`capRefresh` and `refreshErr` model the `fs.CapRefresh` outcome used when it
is nil (a refresh failure returns early). -/
def oosTrigger (refreshed : Option CapSt) (capRefresh : CapSt) (refreshErr : Bool)
    (sinceLast minIval : Int) (cs2 : CapSt) : List SpaceAct :=
  match refreshed with
  | some c => oosGo c sinceLast minIval cs2
  | none => if refreshErr then [] else oosGo capRefresh sinceLast minIval cs2

/-! ## dpq.parse (ais datapath fast-parse)

The `apc`/`s3` query-parameter constants and the `cos`/`archive` helpers live
outside src/; only their call sites are under src/. Their string values and
helper semantics are modelled from the spec (§6: datapath fast-parse query
params); what the claims depend on is only that the constants are pairwise
distinct strings. -/

/-- Modelled from the spec: the supported datapath query-parameter names
(`provider`, `namespace`, `skip-vc`, `unix-time`, `uuid`,
`arch-path|mime|regx|mode`, `is-gfn`, `orig-url`, `append-type|handle`, `owt`,
`flt-presence`, `dont-add-remote`, `binfo-with-or-without-remote`, `etl-name`,
`silent`, `latest-ver`); the `apc` package itself is not under src/. -/
def QparamProvider : String := "provider"

def QparamNamespace : String := "namespace"

def QparamSkipVC : String := "skip-vc"

def QparamUnixTime : String := "unix-time"

def QparamUUID : String := "uuid"

def QparamArchpath : String := "arch-path"

def QparamArchmime : String := "arch-mime"

def QparamArchregx : String := "arch-regx"

def QparamArchmode : String := "arch-mode"

def QparamIsGFNRequest : String := "is-gfn"

def QparamOrigURL : String := "orig-url"

def QparamAppendType : String := "append-type"

def QparamAppendHandle : String := "append-handle"

def QparamOWT : String := "owt"

def QparamFltPresence : String := "flt-presence"

def QparamDontAddRemote : String := "dont-add-remote"

def QparamBinfoWithOrWithoutRemote : String := "binfo-with-or-without-remote"

def QparamETLName : String := "etl-name"

def QparamSilent : String := "silent"

def QparamLatestVer : String := "latest-ver"

/-- Modelled from the spec: `apc.QparamProxyID` — a known-but-"not used yet"
key exempted in `dpq.parse`; not under src/, value opaque. -/
def QparamProxyID : String := "proxy-id"

/-- Modelled from the spec: `apc.QparamDontHeadRemote`, likewise exempted. -/
def QparamDontHeadRemote : String := "dont-head-remote"

/-- Modelled from the spec: the S3 multipart/signature keys that `dpq.parse`
exempts because "flows that utilize these particular keys perform conventional
`r.URL.Query()` parsing"; the `ais/s3` package is not under src/. -/
def s3ExemptKeys : List String :=
  ["s3-mpt-upload-id", "s3-mpt-uploads", "s3-mpt-part-no",
   "s3-access-key-id", "s3-expires", "s3-signature",
   "s3-hdr-algorithm", "s3-hdr-credentials", "s3-hdr-date",
   "s3-hdr-expires", "s3-hdr-signed-headers", "s3-hdr-signature", "s3-xid"]

/-- The keys explicitly named in the `switch` of `dpq.parse`: the supported
datapath parameter list. -/
def dpqSupportedKeys : List String :=
  [QparamProvider, QparamNamespace, QparamSkipVC, QparamUnixTime, QparamUUID,
   QparamArchpath, QparamArchmime, QparamArchregx, QparamArchmode,
   QparamIsGFNRequest, QparamOrigURL, QparamAppendType, QparamAppendHandle,
   QparamOWT, QparamFltPresence, QparamDontAddRemote,
   QparamBinfoWithOrWithoutRemote, QparamETLName, QparamSilent, QparamLatestVer]

/-- The keys that the debug-build `default` branch of `dpq.parse` recognizes
and silently skips. -/
def dpqExemptKeys : List String :=
  QparamProxyID :: QparamDontHeadRemote :: s3ExemptKeys

structure DpqBck where
  provider : String
  nspace : String
deriving DecidableEq, Repr

structure DpqApnd where
  ty : String
  hdl : String
deriving DecidableEq, Repr

structure DpqArch where
  path : String
  mime : String
  regx : String
  mmode : String
deriving DecidableEq, Repr

/-- The `dpq` structure of ais/dpq.go (field `bck.namespace` is `nspace` here;
`isS3` is set outside `parse` and carried along). -/
structure Dpq where
  bck : DpqBck
  apnd : DpqApnd
  arch : DpqArch
  ptime : String
  uuid : String
  origURL : String
  owt : String
  fltPresence : String
  etlName : String
  binfo : String
  skipVC : Bool
  isGFN : Bool
  dontAddRemote : Bool
  silent : Bool
  latestVer : Bool
  isS3 : Bool
deriving DecidableEq, Repr

/-- Go `dpq0`: the zero value a freed dpq is reset to. -/
def dpq0 : Dpq :=
  { bck := ⟨"", ""⟩, apnd := ⟨"", ""⟩, arch := ⟨"", "", "", ""⟩
    ptime := "", uuid := "", origURL := "", owt := "", fltPresence := ""
    etlName := "", binfo := ""
    skipVC := false, isGFN := false, dontAddRemote := false
    silent := false, latestVer := false, isS3 := false }

inductive ParseErr where
  /-- Go `url.QueryUnescape` failed for the value of the given key. -/
  | badEscape (key : String)
  /-- Go `archive.ValidateMatchMode` rejected the value. -/
  | badMatchMode (val : String)
  /-- archpath and archregx/archmode are mutually exclusive. -/
  | archConflict
  /-- debug-build fatal: key outside the supported and exempt lists. -/
  | unknownKey (key : String)
deriving DecidableEq, Repr

def hexDigit (c : Char) : Option Nat :=
  if '0' ≤ c ∧ c ≤ '9' then some (c.toNat - '0'.toNat)
  else if 'a' ≤ c ∧ c ≤ 'f' then some (c.toNat - 'a'.toNat + 10)
  else if 'A' ≤ c ∧ c ≤ 'F' then some (c.toNat - 'A'.toNat + 10)
  else none

/-- Go stdlib `url.QueryUnescape` on the character list: percent-decoding with
`+` decoded to space; errors on a malformed percent escape. -/
def queryUnescapeL : List Char → Option (List Char)
  | [] => some []
  | '%' :: a :: b :: rest =>
    match hexDigit a, hexDigit b with
    | some x, some y => (queryUnescapeL rest).map (fun l => Char.ofNat (16 * x + y) :: l)
    | _, _ => none
  | '%' :: _ => none
  | '+' :: rest => (queryUnescapeL rest).map (fun l => ' ' :: l)
  | c :: rest => (queryUnescapeL rest).map (fun l => c :: l)

def queryUnescape (s : String) : Option String :=
  (queryUnescapeL s.toList).map List.asString

/-- Modelled from the spec: `cos.IsParseBool` (the `cos` package is not under
src/) — a permissive boolean parse where an empty value means true. -/
def isParseBool (v : String) : Bool :=
  v == "" || v == "true" || v == "1" || v == "on" || v == "yes"

/-- Modelled from the spec: `archive.ValidateMatchMode` (not under src/) —
accepts the empty mode or one of a fixed enumeration of match modes. -/
def validateMatchMode (s : String) : Option String :=
  if s = "" ∨ s ∈ ["regexp", "substr", "wdskey"] then some s else none

/-- Go `keyEQval`: split a `key=value` segment at the first `=` when that `=` is
not the leading character (`i > 0` in the Go source). -/
def keyEQvalL (s : List Char) : List Char × List Char :=
  match s.findIdx? (· = '=') with
  | some i => if 0 < i then (s.take i, s.drop (i + 1)) else (s, [])
  | none => (s, [])

/-- The `&`-segmentation performed by the loop of `dpq.parse`: the loop body
takes the segment before the first `&` and continues while the remainder is
nonempty (so a trailing empty segment after a final `&` is never processed). -/
def goSegsAux (acc : List Char) : List Char → List (List Char)
  | [] => [acc.reverse]
  | c :: rest =>
    if c = '&' then acc.reverse :: (if rest = [] then [] else goSegsAux [] rest)
    else goSegsAux (c :: acc) rest

def goSegs (s : String) : List (List Char) :=
  match s.toList with
  | [] => []
  | l => goSegsAux [] l

/-- Go `dpq._arch` without the mutual-exclusion postcheck: the per-key assignment. -/
def dpqArchStep (dpq : Dpq) (key val : String) : Except ParseErr Dpq :=
  if key = QparamArchpath then
    match queryUnescape val with
    | some v => .ok { dpq with arch.path := v }
    | none => .error (.badEscape key)
  else if key = QparamArchmime then
    match queryUnescape val with
    | some v => .ok { dpq with arch.mime := v }
    | none => .error (.badEscape key)
  else if key = QparamArchregx then
    match queryUnescape val with
    | some v => .ok { dpq with arch.regx := v }
    | none => .error (.badEscape key)
  else
    match validateMatchMode val with
    | some v => .ok { dpq with arch.mmode := v }
    | none => .error (.badMatchMode val)

/-- Go `dpq._arch`: set one of the four archive keys, then reject the
archpath/archmode combination ("either/or"). -/
def dpqArch (dpq : Dpq) (key val : String) : Except ParseErr Dpq :=
  match dpqArchStep dpq key val with
  | .error e => .error e
  | .ok d =>
    if d.arch.path ≠ "" ∧ d.arch.mmode ≠ "" then .error .archConflict else .ok d

/-- One iteration of the `switch` in `dpq.parse`.  The `default` branch wraps
its unknown-key error in `debug.Func`, which executes its closure in debug
builds only (the `debug` package is not under src/; in a debug build
`debug.AssertNoErr` makes the unknown key immediately fatal, modelled here as
an error return), and exempts the known-but-unused keys. -/
def dpqSetKey (debugBuild : Bool) (dpq : Dpq) (key value : String) :
    Except ParseErr Dpq :=
  if key = QparamProvider then .ok { dpq with bck.provider := value }
  else if key = QparamNamespace then
    match queryUnescape value with
    | some v => .ok { dpq with bck.nspace := v }
    | none => .error (.badEscape key)
  else if key = QparamSkipVC then .ok { dpq with skipVC := isParseBool value }
  else if key = QparamUnixTime then .ok { dpq with ptime := value }
  else if key = QparamUUID then .ok { dpq with uuid := value }
  else if key = QparamArchpath ∨ key = QparamArchmime ∨ key = QparamArchregx
      ∨ key = QparamArchmode then
    dpqArch dpq key value
  else if key = QparamIsGFNRequest then .ok { dpq with isGFN := isParseBool value }
  else if key = QparamOrigURL then
    match queryUnescape value with
    | some v => .ok { dpq with origURL := v }
    | none => .error (.badEscape key)
  else if key = QparamAppendType then .ok { dpq with apnd.ty := value }
  else if key = QparamAppendHandle then
    match queryUnescape value with
    | some v => .ok { dpq with apnd.hdl := v }
    | none => .error (.badEscape key)
  else if key = QparamOWT then .ok { dpq with owt := value }
  else if key = QparamFltPresence then .ok { dpq with fltPresence := value }
  else if key = QparamDontAddRemote then
    .ok { dpq with dontAddRemote := isParseBool value }
  else if key = QparamBinfoWithOrWithoutRemote then .ok { dpq with binfo := value }
  else if key = QparamETLName then .ok { dpq with etlName := value }
  else if key = QparamSilent then .ok { dpq with silent := isParseBool value }
  else if key = QparamLatestVer then .ok { dpq with latestVer := isParseBool value }
  else if debugBuild then
    if key ∈ dpqExemptKeys then .ok dpq else .error (.unknownKey key)
  else .ok dpq

def dpqParseSegs (debugBuild : Bool) (dpq : Dpq) :
    List (List Char) → Except ParseErr Dpq
  | [] => .ok dpq
  | seg :: rest =>
    let kv := keyEQvalL seg
    match dpqSetKey debugBuild dpq kv.1.asString kv.2.asString with
    | .ok d => dpqParseSegs debugBuild d rest
    | .error e => .error e

/-- Go `dpq.parse` over a raw query string, starting from the zeroed dpq. -/
def Dpq.parse (debugBuild : Bool) (rawQuery : String) : Except ParseErr Dpq :=
  dpqParseSegs debugBuild dpq0 (goSegs rawQuery)

def parseOk : Except ParseErr Dpq → Bool
  | .ok _ => true
  | .error _ => false

/-! ## Sentinel protocol (xs sentinel)

The sentinel's pending map `pend.m : map[tid]*apair` is modelled as an
association list with unique keys; `apair.last = -1` (`apairDeleted`) marks a
peer that already reported done.  The xaction the sentinel drives is reduced
to the two observations the sentinel makes of it (`IsAborted`, `Finished`) and
the `Abort(err)` effect. -/

/-- Go `apairDeleted int64 = -1`. -/
def apairDeleted : Int := -1

structure Apair where
  /-- last progress update (mono nanoseconds); `-1` once the peer is done. -/
  last : Int
  /-- num visited objects. -/
  progress : Int
deriving DecidableEq, Repr

inductive AbortErr where
  /-- progress timeout waiting for the given peer. -/
  | timeout (tid : String)
  /-- Go `cmn.NewErrMembershipChanges`. -/
  | membershipChanges
  /-- broadcast of `opRequest` failed. -/
  | bcastFailed
deriving DecidableEq, Repr

structure Sentinel where
  /-- Go `pend.m`: tid → apair. -/
  m : List (String × Apair)
  /-- Go `pend.p`: the reusable pending slice (recomputed by `pending()`). -/
  pendP : List String
  /-- Go `pend.i`: periodic gate. -/
  pendI : Int
  /-- Go `pend.n`: current number of peers still running. -/
  pendN : Int
  /-- number of active targets at xaction start. -/
  nat : Nat
  /-- Go `r.Abort(err)` effect: the abort error, once aborted. -/
  abortedWith : Option AbortErr
  /-- Go `r.Finished()`. -/
  finished : Bool
deriving DecidableEq, Repr

def lookupA : List (String × Apair) → String → Option Apair
  | [], _ => none
  | (k, v) :: rest, key => if k = key then some v else lookupA rest key

def updateA : List (String × Apair) → String → Apair → List (String × Apair)
  | [], _, _ => []
  | (k, v) :: rest, key, nv =>
    if k = key then (k, nv) :: rest else (k, v) :: updateA rest key nv

/-- Go `sentinel.pending()`: recompute the pending slice — every tracked peer
whose `last` is not `apairDeleted`. -/
def pendingOf (m : List (String × Apair)) : List String :=
  (m.filter (fun kv => kv.2.last ≠ apairDeleted)).map (·.1)

/-- The cluster map observations `checkSmap` makes: active-target count,
presence, and maintenance/decommission state per node id. -/
structure Smap where
  countActiveTs : Nat
  present : String → Bool
  inMaintOrDecomm : String → Bool

/-- Go `sentinel.checkSmap`: membership-changes error when the active-target
count differs from the count at start, or when any pending peer left the map
or entered maintenance/decommission. -/
def checkSmap (smap : Smap) (nat : Nat) (pending : List String) : Option AbortErr :=
  if smap.countActiveTs ≠ nat then some .membershipChanges
  else if pending.any (fun tid => !smap.present tid || smap.inMaintOrDecomm tid) then
    some .membershipChanges
  else none

/-- Step 3 of `qcb`: the first tracked peer that has not reported done and
whose last progress is older than the progress timeout. -/
def findTimedOut (m : List (String × Apair)) (now progressTimeout : Int) :
    Option String :=
  match m.find? (fun kv => kv.2.last ≠ apairDeleted ∧ now - kv.2.last > progressTimeout) with
  | some kv => some kv.1
  | none => none

inductive QuiRes where
  | active
  | done
  | aborted
deriving DecidableEq, Repr

/-- Go `sentinel._qabort`: abort the xaction and report `core.QuiAborted`. -/
def qabort (s : Sentinel) (err : AbortErr) : QuiRes × Sentinel :=
  (.aborted, { s with abortedWith := some err })

/-- Go `sentinel.qcb`: the quiescence callback. `tot` and `ival` are durations
(Go int64 nanoseconds, hence `Int.tdiv` for Go's truncating division); `now`
is the monotonic clock; `bcastOk` models the `dm.Bcast(opRequest)` outcome. -/
def qcb (s : Sentinel) (smap : Smap) (now tot ival progressTimeout : Int)
    (bcastOk : Bool) : QuiRes × Sentinel :=
  let i := Int.tdiv tot ival
  if i ≤ s.pendI then (.active, s)
  else
    -- 1. log (recompute the pending slice)
    let s1 := { s with pendI := i, pendP := pendingOf s.m }
    if s1.pendP = [] then (.done, s1)
    else
      -- 2. check Smap; abort if membership changed
      match checkSmap smap s1.nat s1.pendP with
      | some err => qabort s1 err
      | none =>
        -- 3. check progress timeout
        match findTimedOut s1.m now progressTimeout with
        | some tid => qabort s1 (.timeout tid)
        | none =>
          -- 4. request progress
          if !bcastOk then qabort s1 .bcastFailed else (.active, s1)

/-- Go `sentinel.rxDone`: handle an `opDone` message from peer `sid`. -/
def rxDone (s : Sentinel) (sid : String) : Sentinel :=
  if s.abortedWith.isSome ∨ s.finished then s
  else
    match lookupA s.m sid with
    | none => s
    | some ap =>
      let m' := updateA s.m sid { ap with last := apairDeleted }
      let n' := if ap.last ≠ apairDeleted then s.pendN - 1 else s.pendN
      { s with m := m', pendN := n' }

/-- A sequence of received `opDone` messages, applied in order. -/
def rxDoneAll (s : Sentinel) (sids : List String) : Sentinel :=
  sids.foldl rxDone s

/-! ## Shared data mover (transport/bundle sdm.go)

`sdm.receivers : map[string]*rxent` is an association list keyed by the
xaction UUID; `RegRecv` stores a receiver under its own `ID()`.
`xact.CheckValidUUID` is not under src/ and is passed in as the `validUUID`
predicate (modelled from the spec: receivers register per-xaction by UUID). -/

structure RxEnt where
  /-- Go `rx.ID()`. -/
  id : String
deriving DecidableEq, Repr

def lookupR : List (String × RxEnt) → String → Option RxEnt
  | [], _ => none
  | (k, v) :: rest, key => if k = key then some v else lookupR rest key

def updateR : List (String × RxEnt) → String → RxEnt → List (String × RxEnt)
  | [], _, _ => []
  | (k, v) :: rest, key, nv =>
    if k = key then (k, nv) :: rest else (k, v) :: updateR rest key nv

/-- Go map assignment `m[k] = v`: replace or append. -/
def insertR (m : List (String × RxEnt)) (k : String) (v : RxEnt) :
    List (String × RxEnt) :=
  if (lookupR m k).isSome then updateR m k v else m ++ [(k, v)]

/-- Go `sharedDM.RegRecv`: register a receiver under its ID, provided the SDM is
open. -/
def sdmRegRecv (isOpen : Bool) (m : List (String × RxEnt)) (rx : RxEnt) :
    List (String × RxEnt) :=
  if isOpen then insertR m rx.id rx else m

inductive RecvErr where
  /-- the transport handed recv a non-nil error. -/
  | inputErr
  /-- Go `xact.CheckValidUUID` failed for the Demux header. -/
  | invalidUUID
  /-- no receiver registered under the Demux UUID. -/
  | notFound
  /-- registered entry's ID does not match the key (the "unlikely" guard). -/
  | mismatch
deriving DecidableEq, Repr

inductive RecvOut where
  /-- recv returned an error without invoking any receiver's `RecvObj`. -/
  | noRecv (e : RecvErr)
  /-- Go `RecvObj` of the receiver with the given ID was invoked; `recvErr` is
  the error that `RecvObj` itself returned, propagated by recv. -/
  | delivered (rxID : String) (recvErr : Bool)
deriving DecidableEq, Repr

/-- Go `sharedDM.recv`: route one inbound frame by its `Demux` header.
`recvObjFails xid` models the registered receiver's own `RecvObj` outcome. -/
def sdmRecv (validUUID : String → Bool) (recvObjFails : String → Bool)
    (receivers : List (String × RxEnt)) (demux : String) (inErr : Bool) : RecvOut :=
  if inErr then .noRecv .inputErr
  else if !validUUID demux then .noRecv .invalidUUID
  else
    match lookupR receivers demux with
    | none => .noRecv .notFound
    | some en =>
      if en.id ≠ demux then .noRecv .mismatch
      else .delivered en.id (recvObjFails demux)

/-- The registration invariant: every entry is registered under its own ID. -/
def rxWF (m : List (String × RxEnt)) : Prop :=
  ∀ kv ∈ m, (kv.2 : RxEnt).id = kv.1

/-! ## Space cleanup (space/cleanup.go, the second half of core/ct.go's file)

The jogger `clnJ` and parent `clnP` are embedded at the granularity of the
filesystem operations they perform: every `os.Remove`/`RemoveMain`/
`DeleteObject`/`DelExtraCopies`/`Rmdir` call that succeeds is emitted as a
`ClnAct`; filesystem stat/lock/load outcomes the Go code observes are oracle
fields of `ClnEnv`/`VisitEnv`. -/

def flagRmOldWork : Nat := 1

def flagRmMisplacedLOMs : Nat := 2

def flagRmMisplacedEC : Nat := 4

def flagRmAll : Nat := flagRmOldWork ||| flagRmMisplacedLOMs ||| flagRmMisplacedEC

/-- One of `xreg.GetRebMarked()` / `xreg.GetResilverMarked()`: whether the
xaction is running (`Xact != nil`), was interrupted, or the node restarted. -/
structure Marked where
  running : Bool
  interrupted : Bool
  restarted : Bool
deriving DecidableEq, Repr

/-- Go `clnP.rmMisplaced`: decide whether misplaced objects may be removed, given
the rebalance marker `g`, the resilver marker `l`, and `Args.Force`. -/
def rmMisplaced (g l : Marked) (force : Bool) : Bool :=
  if !g.running && !l.running && !g.interrupted && !g.restarted && !l.interrupted then
    true
  else if g.running then false
  else if g.interrupted then force
  else if g.restarted then force
  else if l.running then false
  else if l.interrupted then false
  else false

/-- An entry of `j.misplaced.loms` (what `rmLeftovers` reads: FQN and size). -/
structure LomEntry where
  fqn : String
  size : Int
deriving DecidableEq, Repr

/-- An entry of `j.misplaced.ec`: the CT's FQN, its generated EC-metafile FQN,
and its size. -/
structure ECEntry where
  fqn : String
  metaFqn : String
  size : Int
deriving DecidableEq, Repr

/-- The mutable jogger state the claims observe. -/
structure ClnJ where
  oldWork : List String
  misLoms : List LomEntry
  misEC : List ECEntry
  /-- Go `xcln.Abort(err)` was called. -/
  aborted : Bool
deriving DecidableEq, Repr

inductive ClnAct where
  /-- Go `cos.RemoveFile(workfqn)` succeeded (pass 1 of `rmLeftovers`). -/
  | rmOldWork (fqn : String)
  /-- a misplaced object was removed (pass 2 of `rmLeftovers`). -/
  | rmMisObj (fqn : String)
  /-- Go `os.Remove(ct.FQN())` succeeded (pass 3 of `rmLeftovers`). -/
  | rmMisEC (fqn : String)
  /-- Go `lom.RemoveMain()` succeeded (corrupted / missing metadata). -/
  | rmMain (fqn : String)
  /-- Go `core.T.DeleteObject` succeeded (zero-size removal). -/
  | delObj (fqn : String)
  /-- Go `lom.DelExtraCopies()` succeeded (`rmExtraCopies`). -/
  | delExtraCopies (fqn : String)
  /-- Go `syscall.Rmdir` on an empty directory. -/
  | rmDir (fqn : String)
deriving DecidableEq, Repr

/-- Jogger-wide environment: configuration, markers, and the filesystem
oracles consulted by the removal passes. -/
structure ClnEnv where
  now : Int
  /-- Go `config.Space.DontCleanupTime`. -/
  dontTime : Int
  /-- Go `config.Space.BatchSize`. -/
  batchSize : Nat
  /-- Go `Args.Flags & XrmZeroSize`. -/
  rmZeroSize : Bool
  /-- Go `Args.Force`. -/
  force : Bool
  /-- Go `xreg.GetRebMarked()`. -/
  g : Marked
  /-- Go `xreg.GetResilverMarked()`. -/
  l : Marked
  /-- Go `j.done()`. -/
  done : Bool
  /-- Go `os.Lstat` on a queued work file: its size, or none when gone. -/
  lstatSize : String → Option Int
  /-- Go `os.Remove` / `cos.RemoveFile` success. -/
  removeOk : String → Bool
  /-- pass-3 re-check `cos.Stat(metaFQN) == nil`. -/
  metaExistsOf : String → Bool
  /-- outcome of the three-way misplaced-lom removal (`os.Remove` after a
  failed `InitBck`/`FromFS`, or `DelExtraCopies`): the file was removed. -/
  lomRemoved : String → Bool

/-- Pass 1 of `rmLeftovers`: remove each queued old work file that still
exists. -/
def rmOldPass (env : ClnEnv) (ws : List String) : List ClnAct :=
  ws.filterMap (fun w =>
    if (env.lstatSize w).isSome then
      if env.removeOk w then some (.rmOldWork w) else none
    else none)

/-- Pass 2 loop of `rmLeftovers` over `j.misplaced.loms`; the Bool is the
early `j.done()` return taken after a successful removal. -/
def rmLomsPass (env : ClnEnv) : List LomEntry → List ClnAct × Bool
  | [] => ([], false)
  | e :: es =>
    if env.lomRemoved e.fqn then
      if env.done then ([.rmMisObj e.fqn], true)
      else
        let r := rmLomsPass env es
        (.rmMisObj e.fqn :: r.1, r.2)
    else rmLomsPass env es

/-- Pass 3 loop of `rmLeftovers` over `j.misplaced.ec`: skip entries whose
metafile re-appeared, remove the rest; the Bool is the early `j.done()`
return. -/
def rmECPass (env : ClnEnv) : List ECEntry → List ClnAct × Bool
  | [] => ([], false)
  | e :: es =>
    if env.metaExistsOf e.metaFqn then rmECPass env es
    else if env.removeOk e.fqn then
      if env.done then ([.rmMisEC e.fqn], true)
      else
        let r := rmECPass env es
        (.rmMisEC e.fqn :: r.1, r.2)
    else rmECPass env es

/-- Pass 3 of `rmLeftovers` (reached unless pass 2 returned early). Note: no
`rmMisplaced` gate here — EC leftovers only re-check their metafile. An early
`j.done()` return leaves the EC queue unreset. -/
def rmLeftoversEC (env : ClnEnv) (j : ClnJ) (specifier : Nat)
    (acc : List ClnAct) : ClnJ × List ClnAct :=
  if specifier &&& flagRmMisplacedEC ≠ 0 then
    if (rmECPass env j.misEC).2 then (j, acc ++ (rmECPass env j.misEC).1)
    else ({ j with misEC := [] }, acc ++ (rmECPass env j.misEC).1)
  else (j, acc)

/-- Pass 2 of `rmLeftovers`: misplaced objects, gated on `clnP.rmMisplaced`;
an early `j.done()` return skips pass 3 and leaves the queue unreset; the
queue is reset (without removals) when the gate is closed. -/
def rmLeftoversLoms (env : ClnEnv) (j : ClnJ) (specifier : Nat)
    (acc : List ClnAct) : ClnJ × List ClnAct :=
  if specifier &&& flagRmMisplacedLOMs ≠ 0 then
    if j.misLoms ≠ [] ∧ rmMisplaced env.g env.l env.force then
      if (rmLomsPass env j.misLoms).2 then (j, acc ++ (rmLomsPass env j.misLoms).1)
      else
        rmLeftoversEC env { j with misLoms := [] } specifier
          (acc ++ (rmLomsPass env j.misLoms).1)
    else rmLeftoversEC env { j with misLoms := [] } specifier acc
  else rmLeftoversEC env j specifier acc

/-- Go `clnJ.rmLeftovers`: the three removal passes in order. -/
def rmLeftovers (env : ClnEnv) (j : ClnJ) (specifier : Nat) : ClnJ × List ClnAct :=
  if specifier &&& flagRmOldWork ≠ 0 then
    rmLeftoversLoms env { j with oldWork := [] } specifier (rmOldPass env j.oldWork)
  else rmLeftoversLoms env j specifier []

/-- Go `clnJ.rmAnyBatch`: run `rmLeftovers` for one category once its queue has
reached the configured batch size. -/
def rmAnyBatch (env : ClnEnv) (j : ClnJ) (specifier : Nat) : ClnJ × List ClnAct :=
  if specifier = flagRmOldWork then
    if j.oldWork.length < env.batchSize then (j, []) else rmLeftovers env j specifier
  else if specifier = flagRmMisplacedLOMs then
    if j.misLoms.length < env.batchSize then (j, []) else rmLeftovers env j specifier
  else if specifier = flagRmMisplacedEC then
    if j.misEC.length < env.batchSize then (j, []) else rmLeftovers env j specifier
  else (j, [])

/-- On-disk content types walked by the cleanup jogger. -/
inductive CT where
  | obj
  | work
  | ecSlice
  | ecMeta
  | chunk
  | chunkMeta
deriving DecidableEq, Repr

/-- Go `fs.ContentInfo` as returned by `ParseUbase`. -/
structure ContentInfo where
  ok : Bool
  old : Bool
  base : String
  extras : List String
deriving DecidableEq, Repr

/-- Per-visited-file oracles for the non-object content types. -/
structure CTEnv where
  /-- Go `ParseUbase` for a work file. -/
  workInfo : ContentInfo
  /-- Go `core.NewCTFromFQN` succeeded (bucket resolvable). -/
  ctInitOk : Bool
  /-- Go `ct.Bck().Props.EC.Enabled`. -/
  ecEnabled : Bool
  /-- Go `ct.LoadSliceFromFS()` succeeded. -/
  sliceLoadOk : Bool
  sliceMtime : Int
  sliceSize : Int
  /-- Go `fs.CSM.Gen(ct, ECMetaCT, "")`. -/
  metaFqn : String
  /-- slice case: `cos.Stat(metaFQN) == nil`. -/
  metaExists : Bool
  /-- metafile case: `cos.Stat(sliceCT.FQN()) == nil`. -/
  ecSliceExists : Bool
  /-- metafile case: `cos.Stat(objCT.FQN()) == nil`. -/
  ecObjExists : Bool
  /-- Go `ParseUbase` for a chunk. -/
  chunkInfo : ContentInfo
  /-- Go `ParseUbase` for a chunk manifest. -/
  chunkMetaInfo : ContentInfo
  /-- Go `initCTLOM` succeeded (bucket still exists). -/
  lomInitOk : Bool
  /-- Go `_getCompletedID`: the completed manifest's ID, none when "" (no
  completed manifest / not chunked / load failed). -/
  completedID : Option String
  /-- Go `os.Lstat` of the partial manifest: its mtime, none when absent. -/
  partialMtime : Option Int
deriving Repr

inductive LoadRes where
  | ok
  | corrupted
  | missing
  | otherErr
deriving DecidableEq, Repr

/-- Per-visited-object oracles (`visitObj` and `rmExtraCopies`). -/
structure LomEnv where
  /-- Go `lom.InitFQN` succeeded. -/
  initOk : Bool
  /-- on init failure: the bucket is gone (abort) rather than another error. -/
  bckGone : Bool
  /-- Go `lom.Load` outcome. -/
  load : LoadRes
  /-- Go `lom.RemoveMain()` succeeded. -/
  removeMainOk : Bool
  atime : Int
  isHRW : Bool
  hasCopies : Bool
  lsize : Int
  isCopy : Bool
  /-- Go `lom.ECEnabled()`. -/
  ecEnabled : Bool
  /-- Go `fs.CSM.Gen(lom, ECMetaCT, "")`. -/
  metaFqn : String
  /-- Go `cos.Stat(metaFQN) == nil`. -/
  metaExists : Bool
  /-- Go `core.T.DeleteObject` succeeded. -/
  deleteOk : Bool
  /-- Go `lom.TryLock(true)` in `rmExtraCopies`. -/
  tryLockOk : Bool
  /-- reload under lock in `rmExtraCopies`. -/
  reload : LoadRes
  reloadAtime : Int
  reloadIsCopy : Bool
  /-- Go `lom.DelExtraCopies()` succeeded. -/
  delExtraOk : Bool
deriving DecidableEq, Repr

/-- Oracles for `rmEmptyDir` (the `fs` helpers it calls are not under src/). -/
structure DirEnv where
  /-- Go `fs.LikelyCT(base)`. -/
  likelyCT : Bool
  /-- the length guard `len(fqn) < len(base)+len(bck.Name)+8`. -/
  lenTooShort : Bool
  /-- Go `fs.ContainsCT(...)`. -/
  containsCT : Bool
  /-- Go `os.Open` succeeded. -/
  openOk : Bool
  /-- Go `Readdirnames(1)` returned `io.EOF` (directory empty). -/
  readEmpty : Bool
deriving DecidableEq, Repr

/-- Go `clnJ.rmEmptyDir`. -/
def rmEmptyDirActs (de : DirEnv) (fqn : String) : List ClnAct :=
  if de.likelyCT then []
  else if de.lenTooShort then []
  else if !de.containsCT then []
  else if !de.openOk then []
  else if de.readEmpty then [.rmDir fqn] else []

/-- Go `clnJ.rmExtraCopies`: try-lock, reload under lock, re-check atime and
copy-ness, then delete redundant copies. -/
def rmExtraCopies (env : ClnEnv) (le : LomEnv) (fqn : String) : List ClnAct :=
  if !le.tryLockOk then []
  else
    match le.reload with
    | .ok =>
      if le.reloadAtime + env.dontTime > env.now then []
      else if le.reloadIsCopy then []
      else if le.delExtraOk then [.delExtraCopies fqn] else []
    | _ => []

/-- Go `clnJ.visitChunk`: compare the chunk's upload ID against the completed
manifest's; otherwise check the partial manifest's age; note that an old
partial manifest falls through to the orphan branch (the chunk FQN is queued
twice, as in the source). -/
def visitChunk (env : ClnEnv) (cte : CTEnv) (j : ClnJ) (chunkFQN uploadID : String) :
    ClnJ × List ClnAct :=
  match cte.completedID with
  | some id =>
    if id ≠ uploadID then
      rmAnyBatch env { j with oldWork := j.oldWork ++ [chunkFQN] } flagRmOldWork
    else (j, [])
  | none =>
    let p : (ClnJ × List ClnAct) × Bool :=
      match cte.partialMtime with
      | some pm =>
        if pm + env.dontTime > env.now then ((j, []), true)
        else
          (rmAnyBatch env { j with oldWork := j.oldWork ++ [chunkFQN] } flagRmOldWork,
            false)
      | none => ((j, []), false)
    if p.2 then p.1
    else
      let r := rmAnyBatch env
        { p.1.1 with oldWork := p.1.1.oldWork ++ [chunkFQN] } flagRmOldWork
      (r.1, p.1.2 ++ r.2)

/-- Go `clnJ.visitCT`: dispatch a non-object content type.  (`CT.obj` is
unreachable here: `visit` sends objects to `visitObj`; the Go source has a
debug assert in the default case.) -/
def visitCT (env : ClnEnv) (cte : CTEnv) (j : ClnJ) (ctype : CT) (fqn : String) :
    ClnJ × List ClnAct :=
  match ctype with
  | .work =>
    if cte.workInfo.ok ∧ cte.workInfo.old then
      rmAnyBatch env { j with oldWork := j.oldWork ++ [fqn] } flagRmOldWork
    else (j, [])
  | .ecSlice =>
    if ¬(cte.ctInitOk ∧ cte.ecEnabled) then
      rmAnyBatch env { j with oldWork := j.oldWork ++ [fqn] } flagRmOldWork
    else if ¬cte.sliceLoadOk then (j, [])
    else if cte.sliceMtime + env.dontTime > env.now then (j, [])
    else if cte.metaExists then (j, [])
    else
      rmAnyBatch env
        { j with misEC := j.misEC ++ [⟨fqn, cte.metaFqn, cte.sliceSize⟩] }
        flagRmMisplacedEC
  | .ecMeta =>
    if ¬(cte.ctInitOk ∧ cte.ecEnabled) then
      rmAnyBatch env { j with oldWork := j.oldWork ++ [fqn] } flagRmOldWork
    else if cte.ecSliceExists then (j, [])
    else if cte.ecObjExists then (j, [])
    else
      rmAnyBatch env { j with oldWork := j.oldWork ++ [fqn] } flagRmOldWork
  | .chunk =>
    if ¬cte.chunkInfo.ok then
      rmAnyBatch env { j with oldWork := j.oldWork ++ [fqn] } flagRmOldWork
    else if ¬cte.lomInitOk then ({ j with aborted := true }, [])
    else visitChunk env cte j fqn (cte.chunkInfo.extras.headD "")
  | .chunkMeta =>
    if ¬cte.chunkMetaInfo.ok then
      rmAnyBatch env { j with oldWork := j.oldWork ++ [fqn] } flagRmOldWork
    else if ¬cte.lomInitOk then ({ j with aborted := true }, [])
    else if cte.chunkMetaInfo.extras ≠ [] then
      rmAnyBatch env { j with oldWork := j.oldWork ++ [fqn] } flagRmOldWork
    else (j, [])
  | .obj => (j, [])

/-- Go `clnJ.visitObj`. -/
def visitObj (env : ClnEnv) (le : LomEnv) (j : ClnJ) (fqn : String) :
    ClnJ × List ClnAct :=
  if ¬le.initOk then
    if le.bckGone then ({ j with aborted := true }, []) else (j, [])
  else
    match le.load with
    | .corrupted => (j, if le.removeMainOk then [.rmMain fqn] else [])
    | .missing => (j, if le.removeMainOk then [.rmMain fqn] else [])
    | .otherErr => (j, [])
    | .ok =>
      if le.atime + env.dontTime > env.now then (j, [])
      else if le.isHRW then
        let a1 := if le.hasCopies then rmExtraCopies env le fqn else []
        let a2 :=
          if le.lsize = 0 ∧ env.rmZeroSize then
            if le.deleteOk then [ClnAct.delObj fqn] else []
          else []
        (j, a1 ++ a2)
      else if le.isCopy then (j, [])
      else if le.ecEnabled then
        if ¬le.metaExists then
          rmAnyBatch env
            { j with misEC := j.misEC ++ [⟨fqn, le.metaFqn, le.lsize⟩] }
            flagRmMisplacedEC
        else (j, [])
      else
        rmAnyBatch env
          { j with misLoms := j.misLoms ++ [⟨fqn, le.lsize⟩] }
          flagRmMisplacedLOMs

/-- Per-visited-entry environment for `clnJ.visit`. -/
structure VisitEnv where
  /-- Go `de.IsDir()`. -/
  isDir : Bool
  /-- Go `os.Lstat(fqn)`: the modification time, none on error. -/
  lstatMtime : Option Int
  /-- Go `core.ResolveFQN` succeeded. -/
  resolveOk : Bool
  /-- Go `parsed.ContentType`. -/
  ctype : CT
  dir : DirEnv
  cte : CTEnv
  lome : LomEnv
deriving Repr

/-- Go `clnJ.visit`: the walk callback.  A file whose mtime plus the
dont-cleanup window is after `now` is skipped before any queuing. -/
def visit (env : ClnEnv) (ve : VisitEnv) (j : ClnJ) (fqn : String) :
    ClnJ × List ClnAct :=
  if ve.isDir then (j, rmEmptyDirActs ve.dir fqn)
  else if env.done then (j, [])
  else
    let tooEarly : Bool :=
      match ve.lstatMtime with
      | some m => decide (m + env.dontTime > env.now)
      | none => false
    if tooEarly then (j, [])
    else if ¬ve.resolveOk then (j, [])
    else if ve.ctype ≠ .obj then visitCT env ve.cte j ve.ctype fqn
    else visitObj env ve.lome j fqn

/-! ## Concrete instances used by witnesses and counterexamples -/

/-- A cleanup environment with a *running* rebalance and `--force` set. -/
def c1Env : ClnEnv :=
  { now := 1000, dontTime := 10, batchSize := 64, rmZeroSize := false
    force := true
    g := { running := true, interrupted := false, restarted := false }
    l := { running := false, interrupted := false, restarted := false }
    done := false
    lstatSize := fun _ => some 1
    removeOk := fun _ => true
    metaExistsOf := fun _ => false
    lomRemoved := fun _ => true }

/-- A jogger state holding one queued misplaced object. -/
def c1J : ClnJ :=
  { oldWork := [], misLoms := [⟨"/mp1/obj/b/o1", 7⟩], misEC := [], aborted := false }

/-- All-clear markers (no rebalance/resilver running, interrupted or
restarted). -/
def clearMarked : Marked := { running := false, interrupted := false, restarted := false }

/-- A quiescent cleanup environment (no markers, nothing forced). -/
def c5Env : ClnEnv :=
  { c1Env with force := false, g := clearMarked }

/-- A visited EC metafile whose bucket has EC enabled and whose slice and
replica are both absent. -/
def c5CTE : CTEnv :=
  { workInfo := ⟨false, false, "", []⟩
    ctInitOk := true, ecEnabled := true
    sliceLoadOk := true, sliceMtime := 0, sliceSize := 0
    metaFqn := "/mp1/ec-meta/b/o1", metaExists := false
    ecSliceExists := false, ecObjExists := false
    chunkInfo := ⟨false, false, "", []⟩, chunkMetaInfo := ⟨false, false, "", []⟩
    lomInitOk := true, completedID := none, partialMtime := none }

def c5J : ClnJ := { oldWork := [], misLoms := [], misEC := [], aborted := false }

/-- A young regular file (mtime within the dont-cleanup window). -/
def c6VE : VisitEnv :=
  { isDir := false, lstatMtime := some 995, resolveOk := true, ctype := .work
    dir := ⟨false, false, false, false, false⟩
    cte := c5CTE
    lome :=
      { initOk := true, bckGone := false, load := .ok, removeMainOk := true
        atime := 0, isHRW := true, hasCopies := false, lsize := 1, isCopy := false
        ecEnabled := false, metaFqn := "", metaExists := false, deleteOk := true
        tryLockOk := true, reload := .ok, reloadAtime := 0, reloadIsCopy := false
        delExtraOk := true } }

/-- A sentinel tracking one not-yet-done peer whose progress stalled. -/
def c3S : Sentinel :=
  { m := [("t2", { last := 100, progress := 5 })]
    pendP := [], pendI := 0, pendN := 1, nat := 2
    abortedWith := none, finished := false }

/-- A healthy cluster map of two active targets. -/
def c3Smap : Smap :=
  { countActiveTs := 2, present := fun _ => true, inMaintOrDecomm := fun _ => false }

/-- A cluster map whose active-target count changed from two to three. -/
def c4Smap : Smap :=
  { countActiveTs := 3, present := fun _ => true, inMaintOrDecomm := fun _ => false }

/-- One registered SDM receiver under xaction UUID "x1". -/
def c8Receivers : List (String × RxEnt) := [("x1", { id := "x1" })]

/-- A sentinel tracking two not-yet-done peers. -/
def c10S : Sentinel :=
  { m := [("t1", { last := 50, progress := 1 }), ("t3", { last := 60, progress := 2 })]
    pendP := [], pendI := 0, pendN := 2, nat := 3
    abortedWith := none, finished := false }

/-! ## Supporting lemmas -/

theorem ErrValue.storeAll_of_pos (es : List String) (ea : ErrValue) (h : 1 ≤ ea.cnt) :
    ErrValue.storeAll ea es = { val := ea.val, cnt := ea.cnt + es.length } := by
  induction es generalizing ea with
  | nil => simp [ErrValue.storeAll]
  | cons x xs ih =>
    have hne : ¬(ea.cnt + 1 = 1) := by omega
    have hstep : ErrValue.store ea x = { cnt := ea.cnt + 1, val := ea.val } := by
      simp [ErrValue.store, hne]
    show ErrValue.storeAll (ErrValue.store ea x) xs = _
    rw [hstep, ih _ (by simp)]
    simp only [ErrValue.mk.injEq, List.length_cons, eq_self_iff_true, true_and]
    omega

theorem lookupR_mem {m : List (String × RxEnt)} {k : String} {v : RxEnt}
    (h : lookupR m k = some v) : (k, v) ∈ m := by
  induction m with
  | nil => simp [lookupR] at h
  | cons kv rest ih =>
    obtain ⟨k', v'⟩ := kv
    simp only [lookupR] at h
    by_cases hk : k' = k
    · rw [if_pos hk] at h
      cases h
      subst hk
      exact List.mem_cons_self _ _
    · rw [if_neg hk] at h
      exact List.mem_cons_of_mem _ (ih h)

theorem updateR_mem {m : List (String × RxEnt)} {k : String} {v : RxEnt}
    {kv : String × RxEnt} (h : kv ∈ updateR m k v) : kv ∈ m ∨ kv = (k, v) := by
  induction m with
  | nil => simp [updateR] at h
  | cons kv' rest ih =>
    obtain ⟨k', v'⟩ := kv'
    simp only [updateR] at h
    by_cases hk : k' = k
    · rw [if_pos hk] at h
      rcases List.mem_cons.mp h with h1 | h1
      · right; rw [h1, hk]
      · left; exact List.mem_cons_of_mem _ h1
    · rw [if_neg hk] at h
      rcases List.mem_cons.mp h with h1 | h1
      · left; rw [h1]; exact List.mem_cons_self _ _
      · rcases ih h1 with h2 | h2
        · left; exact List.mem_cons_of_mem _ h2
        · right; exact h2

theorem rxWF_regRecv {m : List (String × RxEnt)} (hwf : rxWF m)
    (isOpen : Bool) (rx : RxEnt) : rxWF (sdmRegRecv isOpen m rx) := by
  unfold sdmRegRecv insertR
  split_ifs with h1 h2
  · intro kv hkv
    rcases updateR_mem hkv with h | h
    · exact hwf kv h
    · rw [h]
  · intro kv hkv
    rcases List.mem_append.mp hkv with h | h
    · exact hwf kv h
    · simp at h
      rw [h]
  · exact hwf

theorem lookupA_mem {m : List (String × Apair)} {k : String} {v : Apair}
    (h : lookupA m k = some v) : (k, v) ∈ m := by
  induction m with
  | nil => simp [lookupA] at h
  | cons kv rest ih =>
    obtain ⟨k', v'⟩ := kv
    simp only [lookupA] at h
    by_cases hk : k' = k
    · rw [if_pos hk] at h
      cases h
      subst hk
      exact List.mem_cons_self _ _
    · rw [if_neg hk] at h
      exact List.mem_cons_of_mem _ (ih h)

theorem lookupA_updateA_eq {m : List (String × Apair)} {k : String} {w : Apair}
    (v : Apair) (h : lookupA m k = some w) :
    lookupA (updateA m k v) k = some v := by
  induction m with
  | nil => simp [lookupA] at h
  | cons kv rest ih =>
    obtain ⟨k', v'⟩ := kv
    simp only [lookupA, updateA] at h ⊢
    by_cases hk : k' = k
    · rw [if_pos hk]
      simp [lookupA, hk]
    · rw [if_neg hk]
      simp only [lookupA, if_neg hk]
      exact ih (by rwa [if_neg hk] at h)

theorem lookupA_updateA_ne {m : List (String × Apair)} {k k' : String}
    (v : Apair) (h : k' ≠ k) : lookupA (updateA m k' v) k = lookupA m k := by
  induction m with
  | nil => simp [updateA]
  | cons kv rest ih =>
    obtain ⟨k'', v''⟩ := kv
    simp only [updateA]
    by_cases hk : k'' = k'
    · rw [if_pos hk]
      simp only [lookupA]
      rw [if_neg (by rw [hk]; exact h), if_neg (by rw [hk]; exact h)]
    · rw [if_neg hk]
      simp only [lookupA]
      by_cases hk2 : k'' = k
      · rw [if_pos hk2, if_pos hk2]
      · rw [if_neg hk2, if_neg hk2]
        exact ih

theorem updateA_self {m : List (String × Apair)} {k : String} {v : Apair}
    (h : lookupA m k = some v) : updateA m k v = m := by
  induction m with
  | nil => rfl
  | cons kv rest ih =>
    obtain ⟨k', v'⟩ := kv
    simp only [lookupA, updateA] at h ⊢
    by_cases hk : k' = k
    · rw [if_pos hk] at h
      rw [if_pos hk]
      cases h
      rfl
    · rw [if_neg hk] at h
      rw [if_neg hk, ih h]

theorem updateA_keys (m : List (String × Apair)) (k : String) (v : Apair) :
    (updateA m k v).map Prod.fst = m.map Prod.fst := by
  induction m with
  | nil => rfl
  | cons kv rest ih =>
    obtain ⟨k', v'⟩ := kv
    simp only [updateA]
    by_cases hk : k' = k
    · rw [if_pos hk]
      simp
    · rw [if_neg hk]
      simp [ih]

theorem lookupA_of_mem_nodup {m : List (String × Apair)} {k : String} {v : Apair}
    (hin : (k, v) ∈ m) (hnd : (m.map Prod.fst).Nodup) : lookupA m k = some v := by
  induction m with
  | nil => simp at hin
  | cons kv rest ih =>
    obtain ⟨k', v'⟩ := kv
    simp only [List.map_cons, List.nodup_cons] at hnd
    rcases List.mem_cons.mp hin with h1 | h1
    · cases h1
      simp [lookupA]
    · by_cases hk : k' = k
      · exfalso
        subst hk
        exact hnd.1 (List.mem_map.mpr ⟨(k', v), h1, rfl⟩)
      · simp only [lookupA, if_neg hk]
        exact ih h1 hnd.2

theorem pendingOf_mem {m : List (String × Apair)} {tid : String} {ap : Apair}
    (hmem : (tid, ap) ∈ m) (h : ap.last ≠ apairDeleted) : tid ∈ pendingOf m := by
  unfold pendingOf
  exact List.mem_map.mpr ⟨(tid, ap), List.mem_filter.mpr ⟨hmem, by simpa using h⟩, rfl⟩

theorem pendingOf_sub {m : List (String × Apair)} {tid : String}
    (h : tid ∈ pendingOf m) : tid ∈ m.map Prod.fst := by
  unfold pendingOf at h
  obtain ⟨kv, hkv, hfst⟩ := List.mem_map.mp h
  exact List.mem_map.mpr ⟨kv, (List.mem_filter.mp hkv).1, hfst⟩

theorem not_pending_of_deleted {m : List (String × Apair)} {tid : String} {ap : Apair}
    (hnd : (m.map Prod.fst).Nodup) (hl : lookupA m tid = some ap)
    (hdel : ap.last = apairDeleted) : tid ∉ pendingOf m := by
  intro hmem
  unfold pendingOf at hmem
  obtain ⟨kv, hkv, hfst⟩ := List.mem_map.mp hmem
  obtain ⟨hin, hp⟩ := List.mem_filter.mp hkv
  obtain ⟨k, v⟩ := kv
  cases hfst
  have hlk := lookupA_of_mem_nodup hin hnd
  rw [hl] at hlk
  have hvap : ap = v := by injection hlk
  rw [← hvap, hdel] at hp
  simp [apairDeleted] at hp

theorem rxDone_flags (s : Sentinel) (sid : String) :
    (rxDone s sid).abortedWith = s.abortedWith ∧ (rxDone s sid).finished = s.finished := by
  unfold rxDone
  split_ifs with h
  · exact ⟨rfl, rfl⟩
  · cases hl : lookupA s.m sid <;> simp

theorem rxDone_keys (s : Sentinel) (sid : String) :
    (rxDone s sid).m.map Prod.fst = s.m.map Prod.fst := by
  unfold rxDone
  split_ifs with h
  · rfl
  · cases hl : lookupA s.m sid with
    | none => rfl
    | some ap => simp [updateA_keys]

theorem rxDone_preserves_deleted {s : Sentinel} {tid : String} {ap : Apair}
    (hl : lookupA s.m tid = some ap) (hdel : ap.last = apairDeleted) (sid : String) :
    lookupA (rxDone s sid).m tid = some ap := by
  unfold rxDone
  split_ifs with h
  · exact hl
  · cases hlu : lookupA s.m sid with
    | none => exact hl
    | some ap' =>
      simp only
      by_cases hk : sid = tid
      · subst hk
        rw [hl] at hlu
        cases hlu
        have heq : ({ ap with last := apairDeleted } : Apair) = ap := by
          cases ap
          simp_all
        rw [heq]
        exact lookupA_updateA_eq ap hl
      · rw [lookupA_updateA_ne _ hk]
        exact hl

theorem rxDoneAll_preserves_deleted {s : Sentinel} {tid : String} {ap : Apair}
    (hl : lookupA s.m tid = some ap) (hdel : ap.last = apairDeleted)
    (evs : List String) :
    lookupA (rxDoneAll s evs).m tid = some ap := by
  induction evs generalizing s with
  | nil => exact hl
  | cons e es ih =>
    show lookupA (rxDoneAll (rxDone s e) es).m tid = some ap
    exact ih (rxDone_preserves_deleted hl hdel e)

theorem rxDoneAll_keys (s : Sentinel) (evs : List String) :
    (rxDoneAll s evs).m.map Prod.fst = s.m.map Prod.fst := by
  induction evs generalizing s with
  | nil => rfl
  | cons e es ih =>
    show (rxDoneAll (rxDone s e) es).m.map Prod.fst = _
    rw [ih, rxDone_keys]

theorem checkSmap_of_changed {smap : Smap} {nat : Nat} {pending : List String}
    (h : smap.countActiveTs ≠ nat ∨
      ∃ tid ∈ pending, smap.present tid = false ∨ smap.inMaintOrDecomm tid = true) :
    checkSmap smap nat pending = some .membershipChanges := by
  unfold checkSmap
  by_cases hc : smap.countActiveTs ≠ nat
  · rw [if_pos hc]
  · rw [if_neg hc]
    rcases h with h | ⟨tid, hmem, hcond⟩
    · exact absurd h hc
    · rw [if_pos]
      refine List.any_eq_true.mpr ⟨tid, hmem, ?_⟩
      rcases hcond with h1 | h1 <;> simp [h1]

theorem findTimedOut_of_mem {m : List (String × Apair)} {tid : String} {ap : Apair}
    {now pt : Int} (hmem : (tid, ap) ∈ m) (h1 : ap.last ≠ apairDeleted)
    (h2 : now - ap.last > pt) : ∃ t, findTimedOut m now pt = some t := by
  induction m with
  | nil => simp at hmem
  | cons kv rest ih =>
    by_cases hp : (kv.2.last ≠ apairDeleted ∧ now - kv.2.last > pt)
    · refine ⟨kv.1, ?_⟩
      unfold findTimedOut
      rw [List.find?_cons_of_pos _ (by simpa using hp)]
    · rcases List.mem_cons.mp hmem with h | h
      · cases h
        exact absurd ⟨h1, h2⟩ hp
      · obtain ⟨t, ht⟩ := ih h
        refine ⟨t, ?_⟩
        unfold findTimedOut at ht ⊢
        rw [List.find?_cons_of_neg _ (by simpa using hp)]
        exact ht

theorem rmOldPass_acts {env : ClnEnv} {ws : List String} {a : ClnAct}
    (h : a ∈ rmOldPass env ws) : ∃ f, a = .rmOldWork f := by
  unfold rmOldPass at h
  obtain ⟨w, _, hw⟩ := List.mem_filterMap.mp h
  split_ifs at hw
  · cases hw
    exact ⟨w, rfl⟩

theorem rmECPass_acts {env : ClnEnv} {es : List ECEntry} {a : ClnAct}
    (h : a ∈ (rmECPass env es).1) : ∃ f, a = .rmMisEC f := by
  induction es with
  | nil => simp [rmECPass] at h
  | cons e rest ih =>
    unfold rmECPass at h
    split_ifs at h
    · exact ih h
    · simp at h
      cases h
      exact ⟨e.fqn, rfl⟩
    · rcases List.mem_cons.mp h with h1 | h1
      · exact ⟨e.fqn, h1⟩
      · exact ih h1
    · exact ih h

theorem rmECPass_markers (env : ClnEnv) (g' l' : Marked) (f' : Bool)
    (es : List ECEntry) :
    rmECPass { env with g := g', l := l', force := f' } es = rmECPass env es := by
  induction es with
  | nil => rfl
  | cons e rest ih => simp only [rmECPass, ih]

theorem rmLeftoversEC_acts {env : ClnEnv} {j : ClnJ} {specifier : Nat}
    {acc : List ClnAct} {a : ClnAct}
    (h : a ∈ (rmLeftoversEC env j specifier acc).2) :
    a ∈ acc ∨ ∃ f, a = .rmMisEC f := by
  unfold rmLeftoversEC at h
  split_ifs at h
  · rcases List.mem_append.mp h with h1 | h1
    · exact Or.inl h1
    · exact Or.inr (rmECPass_acts h1)
  · rcases List.mem_append.mp h with h1 | h1
    · exact Or.inl h1
    · exact Or.inr (rmECPass_acts h1)
  · exact Or.inl h

theorem rmLeftoversLoms_acts {env : ClnEnv} {j : ClnJ} {specifier : Nat}
    {acc : List ClnAct} {a : ClnAct}
    (hgate : ¬rmMisplaced env.g env.l env.force = true)
    (h : a ∈ (rmLeftoversLoms env j specifier acc).2) :
    a ∈ acc ∨ ∃ f, a = .rmMisEC f := by
  unfold rmLeftoversLoms at h
  split_ifs at h with h1 h2 h3
  · exact absurd h2.2 hgate
  · exact absurd h2.2 hgate
  · exact rmLeftoversEC_acts h
  · exact rmLeftoversEC_acts h

theorem dpqSetKey_unknown (dpq : Dpq) (key value : String)
    (h1 : key ∉ dpqSupportedKeys) (h2 : key ∉ dpqExemptKeys) :
    dpqSetKey true dpq key value = .error (.unknownKey key) := by
  simp only [dpqSupportedKeys, List.mem_cons, List.not_mem_nil, or_false,
    not_or] at h1
  obtain ⟨n1, n2, n3, n4, n5, n6, n7, n8, n9, n10, n11, n12, n13, n14, n15,
    n16, n17, n18, n19, n20⟩ := h1
  unfold dpqSetKey
  rw [if_neg n1, if_neg n2, if_neg n3, if_neg n4, if_neg n5,
    if_neg (by simp [n6, n7, n8, n9]), if_neg n10, if_neg n11, if_neg n12,
    if_neg n13, if_neg n14, if_neg n15, if_neg n16, if_neg n17, if_neg n18,
    if_neg n19, if_neg n20, if_pos rfl, if_neg h2]

theorem dpqArchStep_ne_unknown (dpq : Dpq) (key val : String) (k : String) :
    dpqArchStep dpq key val ≠ .error (.unknownKey k) := by
  unfold dpqArchStep
  intro h
  split_ifs at h
  · cases hq : queryUnescape val <;> rw [hq] at h <;> simp at h
  · cases hq : queryUnescape val <;> rw [hq] at h <;> simp at h
  · cases hq : queryUnescape val <;> rw [hq] at h <;> simp at h
  · cases hq : validateMatchMode val <;> rw [hq] at h <;> simp at h

theorem dpqArch_ne_unknown (dpq : Dpq) (key val : String) (k : String) :
    dpqArch dpq key val ≠ .error (.unknownKey k) := by
  intro h
  unfold dpqArch at h
  cases hstep : dpqArchStep dpq key val with
  | error e =>
    rw [hstep] at h
    simp at h
    exact dpqArchStep_ne_unknown dpq key val k (h ▸ hstep)
  | ok d =>
    rw [hstep] at h
    dsimp only at h
    split_ifs at h <;> simp at h

theorem dpqSetKey_release_ne_unknown (dpq : Dpq) (key value : String)
    (k : String) : dpqSetKey false dpq key value ≠ .error (.unknownKey k) := by
  intro h
  unfold dpqSetKey at h
  by_cases h1 : key = QparamProvider
  · rw [if_pos h1] at h
    simp at h
  rw [if_neg h1] at h
  by_cases h2 : key = QparamNamespace
  · rw [if_pos h2] at h
    cases hq : queryUnescape value <;> rw [hq] at h <;> simp at h
  rw [if_neg h2] at h
  by_cases h3 : key = QparamSkipVC
  · rw [if_pos h3] at h
    simp at h
  rw [if_neg h3] at h
  by_cases h4 : key = QparamUnixTime
  · rw [if_pos h4] at h
    simp at h
  rw [if_neg h4] at h
  by_cases h5 : key = QparamUUID
  · rw [if_pos h5] at h
    simp at h
  rw [if_neg h5] at h
  by_cases h6 : key = QparamArchpath ∨ key = QparamArchmime ∨
      key = QparamArchregx ∨ key = QparamArchmode
  · rw [if_pos h6] at h
    exact dpqArch_ne_unknown dpq key value k h
  rw [if_neg h6] at h
  by_cases h7 : key = QparamIsGFNRequest
  · rw [if_pos h7] at h
    simp at h
  rw [if_neg h7] at h
  by_cases h8 : key = QparamOrigURL
  · rw [if_pos h8] at h
    cases hq : queryUnescape value <;> rw [hq] at h <;> simp at h
  rw [if_neg h8] at h
  by_cases h9 : key = QparamAppendType
  · rw [if_pos h9] at h
    simp at h
  rw [if_neg h9] at h
  by_cases h10 : key = QparamAppendHandle
  · rw [if_pos h10] at h
    cases hq : queryUnescape value <;> rw [hq] at h <;> simp at h
  rw [if_neg h10] at h
  by_cases h11 : key = QparamOWT
  · rw [if_pos h11] at h
    simp at h
  rw [if_neg h11] at h
  by_cases h12 : key = QparamFltPresence
  · rw [if_pos h12] at h
    simp at h
  rw [if_neg h12] at h
  by_cases h13 : key = QparamDontAddRemote
  · rw [if_pos h13] at h
    simp at h
  rw [if_neg h13] at h
  by_cases h14 : key = QparamBinfoWithOrWithoutRemote
  · rw [if_pos h14] at h
    simp at h
  rw [if_neg h14] at h
  by_cases h15 : key = QparamETLName
  · rw [if_pos h15] at h
    simp at h
  rw [if_neg h15] at h
  by_cases h16 : key = QparamSilent
  · rw [if_pos h16] at h
    simp at h
  rw [if_neg h16] at h
  by_cases h17 : key = QparamLatestVer
  · rw [if_pos h17] at h
    simp at h
  rw [if_neg h17] at h
  rw [if_neg (by simp)] at h
  simp at h

theorem dpqParseSegs_unknown_err (segs : List (List Char)) (dpq : Dpq)
    (h : ∃ seg ∈ segs, (keyEQvalL seg).1.asString ∉ dpqSupportedKeys ∧
      (keyEQvalL seg).1.asString ∉ dpqExemptKeys) :
    ∃ e, dpqParseSegs true dpq segs = .error e := by
  induction segs generalizing dpq with
  | nil => simp at h
  | cons seg rest ih =>
    obtain ⟨s, hs, hbad⟩ := h
    rcases List.mem_cons.mp hs with h1 | h1
    · subst h1
      have hk := dpqSetKey_unknown dpq (keyEQvalL s).1.asString
        (keyEQvalL s).2.asString hbad.1 hbad.2
      refine ⟨.unknownKey (keyEQvalL s).1.asString, ?_⟩
      simp only [dpqParseSegs]
      rw [hk]
    · cases hset : dpqSetKey true dpq (keyEQvalL seg).1.asString
          (keyEQvalL seg).2.asString with
      | error e =>
        refine ⟨e, ?_⟩
        simp only [dpqParseSegs]
        rw [hset]
      | ok d =>
        obtain ⟨e, he⟩ := ih d ⟨s, h1, hbad⟩
        refine ⟨e, ?_⟩
        simp only [dpqParseSegs]
        rw [hset]
        exact he

theorem dpqParseSegs_release_ne_unknown (segs : List (List Char)) (dpq : Dpq)
    (k : String) : dpqParseSegs false dpq segs ≠ .error (.unknownKey k) := by
  induction segs generalizing dpq with
  | nil => simp [dpqParseSegs]
  | cons seg rest ih =>
    intro h
    simp only [dpqParseSegs] at h
    cases hset : dpqSetKey false dpq (keyEQvalL seg).1.asString
        (keyEQvalL seg).2.asString with
    | error e =>
      rw [hset] at h
      simp at h
      exact dpqSetKey_release_ne_unknown dpq _ _ k (h ▸ hset)
    | ok d =>
      rw [hset] at h
      exact ih d h

/-! ## Claims -/

/-- C9: for every sequence of `Store` calls on a `cos.ErrValue`, only the
first error is retained — later calls only increment the count — and `Err()`
returns the first stored error, annotated with the count exactly when more
than one `Store` occurred. -/
theorem C9_errvalue_first_error_wins (e : String) (es : List String) :
    ErrValue.storeAll ErrValue.empty (e :: es) =
      { val := some e, cnt := es.length + 1 } ∧
    (ErrValue.storeAll ErrValue.empty (e :: es)).err =
      (if es.length + 1 > 1 then some (.counted e (es.length + 1))
       else some (.plain e)) := by
  have h1 : ErrValue.storeAll ErrValue.empty (e :: es) =
      { val := some e, cnt := es.length + 1 } := by
    show ErrValue.storeAll (ErrValue.store ErrValue.empty e) es = _
    have : ErrValue.store ErrValue.empty e = { cnt := 1, val := some e } := by
      simp [ErrValue.store, ErrValue.empty]
    rw [this, ErrValue.storeAll_of_pos es _ (by simp)]
    simp [Nat.add_comm]
  refine ⟨h1, ?_⟩
  rw [h1]
  simp [ErrValue.err]

/-- C7: on an out-of-space trigger, cleanup always precedes LRU, and LRU runs
only when the post-cleanup capacity status still reports a capacity error; if
cleanup cleared the error, LRU is never started by this trigger. -/
theorem oosGo_no_lru (cs : CapSt) (sinceLast minIval : Int) (cs2 : CapSt)
    (h : cs2.errCap = false) :
    SpaceAct.runLRU ∉ oosGo cs sinceLast minIval cs2 := by
  unfold oosGo
  split_ifs <;> simp_all

theorem oosGo_lru_shape (cs : CapSt) (sinceLast minIval : Int) (cs2 : CapSt)
    (h : SpaceAct.runLRU ∈ oosGo cs sinceLast minIval cs2) :
    cs2.errCap = true ∧
    ∃ f, oosGo cs sinceLast minIval cs2 = [f, SpaceAct.runCleanup, SpaceAct.runLRU] := by
  unfold oosGo at h ⊢
  split_ifs at h ⊢ <;> simp_all

theorem C7_cleanup_then_lru (refreshed : Option CapSt) (capRefresh : CapSt)
    (refreshErr : Bool) (sinceLast minIval : Int) (cs2 : CapSt) :
    (cs2.errCap = false →
      SpaceAct.runLRU ∉ oosTrigger refreshed capRefresh refreshErr sinceLast minIval cs2) ∧
    (SpaceAct.runLRU ∈ oosTrigger refreshed capRefresh refreshErr sinceLast minIval cs2 →
      cs2.errCap = true ∧
      ∃ f, oosTrigger refreshed capRefresh refreshErr sinceLast minIval cs2 =
        [f, SpaceAct.runCleanup, SpaceAct.runLRU]) := by
  cases refreshed with
  | some c =>
    exact ⟨fun h => oosGo_no_lru c sinceLast minIval cs2 h,
      fun h => oosGo_lru_shape c sinceLast minIval cs2 h⟩
  | none =>
    cases refreshErr with
    | true =>
      constructor
      · intro _; simp [oosTrigger]
      · intro h; simp [oosTrigger] at h
    | false =>
      have hg : oosTrigger none capRefresh false sinceLast minIval cs2 =
          oosGo capRefresh sinceLast minIval cs2 := by
        simp [oosTrigger]
      rw [hg]
      exact ⟨fun h => oosGo_no_lru capRefresh sinceLast minIval cs2 h,
        fun h => oosGo_lru_shape capRefresh sinceLast minIval cs2 h⟩

/-- C7 witness: with a still-erroring post-cleanup status the trigger emits
cleanup then LRU; with a cleared status it emits no LRU. -/
theorem C7_cleanup_then_lru_witness :
    SpaceAct.runLRU ∉
      oosTrigger none { errCap := true, isOOS := true } false 100 10
        { errCap := false, isOOS := false } :=
  (C7_cleanup_then_lru none { errCap := true, isOOS := true } false 100 10
    { errCap := false, isOOS := false }).1 rfl

/-- C8: an inbound SDM frame is delivered to exactly the receiver registered
under the frame's `Demux` UUID; when the UUID is invalid or no receiver is
registered under it (or the transport handed recv an error), recv returns an
error and no receiver's `RecvObj` is invoked; demux-level registration
preserves the invariant that every receiver is keyed by its own ID. -/
theorem C8_sdm_routing (validUUID recvObjFails : String → Bool)
    (receivers : List (String × RxEnt)) (demux : String)
    (hwf : rxWF receivers) :
    (∀ en, validUUID demux = true → lookupR receivers demux = some en →
      sdmRecv validUUID recvObjFails receivers demux false =
        .delivered demux (recvObjFails demux)) ∧
    (validUUID demux = false ∨ lookupR receivers demux = none →
      ∃ e, sdmRecv validUUID recvObjFails receivers demux false = .noRecv e) ∧
    (sdmRecv validUUID recvObjFails receivers demux true = .noRecv .inputErr) ∧
    (∀ isOpen rx, rxWF (sdmRegRecv isOpen receivers rx)) := by
  refine ⟨?_, ?_, rfl, fun isOpen rx => rxWF_regRecv hwf isOpen rx⟩
  · intro en hv hl
    have hid : en.id = demux := hwf (demux, en) (lookupR_mem hl)
    simp [sdmRecv, hv, hl, hid]
  · intro h
    rcases h with h | h
    · exact ⟨.invalidUUID, by simp [sdmRecv, h]⟩
    · cases hv : validUUID demux
      · exact ⟨.invalidUUID, by simp [sdmRecv, hv]⟩
      · exact ⟨.notFound, by simp [sdmRecv, hv, h]⟩

/-- C8 witness: a frame demuxed to "x1" reaches exactly the receiver
registered under "x1". -/
theorem C8_sdm_routing_witness :
    sdmRecv (fun _ => true) (fun _ => false) c8Receivers "x1" false =
      .delivered "x1" false :=
  (C8_sdm_routing (fun _ => true) (fun _ => false) c8Receivers "x1"
      (by intro kv hkv; simp [c8Receivers] at hkv; rw [hkv])).1
    { id := "x1" } rfl rfl

/-- C10: `rxDone` is idempotent per peer — a repeated `opDone` from the same
target changes nothing, the pending count is decremented exactly once, and
after the first `opDone` the peer stays off the pending list under any further
sequence of `opDone` messages. -/
theorem C10_rxdone_idempotent (s : Sentinel) (tid : String) (ap : Apair)
    (hl : lookupA s.m tid = some ap) (hact : ap.last ≠ apairDeleted)
    (hterm : s.abortedWith = none ∧ s.finished = false)
    (hnd : (s.m.map Prod.fst).Nodup) :
    rxDone (rxDone s tid) tid = rxDone s tid ∧
    (rxDone s tid).pendN = s.pendN - 1 ∧
    ∀ evs : List String, tid ∉ pendingOf (rxDoneAll (rxDone s tid) evs).m := by
  have hs1 : rxDone s tid =
      { s with m := updateA s.m tid { ap with last := apairDeleted },
               pendN := s.pendN - 1 } := by
    simp [rxDone, hterm.1, hterm.2, hl, hact]
  have hl1 : lookupA (rxDone s tid).m tid = some { ap with last := apairDeleted } := by
    rw [hs1]
    exact lookupA_updateA_eq _ hl
  refine ⟨?_, by rw [hs1], ?_⟩
  · rw [hs1]
    have hl1' : lookupA (updateA s.m tid { ap with last := apairDeleted }) tid =
        some { ap with last := apairDeleted } := lookupA_updateA_eq _ hl
    simp [rxDone, hterm.1, hterm.2, hl1', updateA_self hl1']
  · intro evs
    have hpres := rxDoneAll_preserves_deleted hl1 rfl evs
    have hnd2 : ((rxDoneAll (rxDone s tid) evs).m.map Prod.fst).Nodup := by
      rw [rxDoneAll_keys, rxDone_keys]
      exact hnd
    exact not_pending_of_deleted hnd2 hpres rfl

/-- C10 witness: two `opDone` from "t1" equal one; the count drops exactly
once; "t1" never re-enters the pending list. -/
theorem C10_rxdone_idempotent_witness :
    rxDone (rxDone c10S "t1") "t1" = rxDone c10S "t1" ∧
    (rxDone c10S "t1").pendN = c10S.pendN - 1 ∧
    "t1" ∉ pendingOf (rxDoneAll (rxDone c10S "t1") ["t3", "t1"]).m := by
  have h := C10_rxdone_idempotent c10S "t1" { last := 50, progress := 1 }
    rfl (by decide) ⟨rfl, rfl⟩ (by decide)
  exact ⟨h.1, h.2.1, h.2.2 ["t3", "t1"]⟩

/-- C3: when a tracked peer has not reported done and its last-progress
timestamp is older than the progress timeout, the quiescence callback (once
its periodic gate passes and the cluster map is unchanged) aborts the whole
xaction with a timeout error and returns the aborted result. -/
theorem C3_progress_timeout_aborts (s : Sentinel) (smap : Smap)
    (now tot ival progressTimeout : Int) (bcastOk : Bool)
    (tid : String) (ap : Apair)
    (hgate : s.pendI < Int.tdiv tot ival)
    (hsmap : checkSmap smap s.nat (pendingOf s.m) = none)
    (hmem : (tid, ap) ∈ s.m)
    (hact : ap.last ≠ apairDeleted)
    (htime : now - ap.last > progressTimeout) :
    (qcb s smap now tot ival progressTimeout bcastOk).1 = .aborted ∧
    ∃ t, (qcb s smap now tot ival progressTimeout bcastOk).2.abortedWith =
      some (.timeout t) := by
  obtain ⟨t, ht⟩ := findTimedOut_of_mem hmem hact htime
  have hpend : ¬(pendingOf s.m = []) := by
    intro h
    exact absurd (h ▸ pendingOf_mem hmem hact) (List.not_mem_nil tid)
  simp only [qcb]
  rw [if_neg (not_le.mpr hgate)]
  try dsimp only
  rw [if_neg hpend, hsmap]
  try dsimp only
  rw [ht]
  exact ⟨rfl, t, rfl⟩

/-- C3 witness: a two-target xaction whose peer "t2" stalled for longer than
the progress timeout is aborted by the quiescence callback. -/
theorem C3_progress_timeout_aborts_witness :
    (qcb c3S c3Smap 1000 10 1 100 true).1 = .aborted ∧
    ∃ t, (qcb c3S c3Smap 1000 10 1 100 true).2.abortedWith = some (.timeout t) :=
  C3_progress_timeout_aborts c3S c3Smap 1000 10 1 100 true "t2"
    { last := 100, progress := 5 } (by decide) rfl (by decide) (by decide) (by decide)

/-- C4: when the cluster map changed — the active-target count differs from
the count at xaction start, or a pending peer left the map or entered
maintenance/decommission — the quiescence callback (once its periodic gate
passes, with peers still pending) aborts with a membership-changes error. -/
theorem C4_membership_change_aborts (s : Sentinel) (smap : Smap)
    (now tot ival progressTimeout : Int) (bcastOk : Bool)
    (hgate : s.pendI < Int.tdiv tot ival)
    (hpend : pendingOf s.m ≠ [])
    (hch : smap.countActiveTs ≠ s.nat ∨
      ∃ tid ∈ pendingOf s.m,
        smap.present tid = false ∨ smap.inMaintOrDecomm tid = true) :
    (qcb s smap now tot ival progressTimeout bcastOk).1 = .aborted ∧
    (qcb s smap now tot ival progressTimeout bcastOk).2.abortedWith =
      some .membershipChanges := by
  have hcs := checkSmap_of_changed hch
  simp only [qcb]
  rw [if_neg (not_le.mpr hgate)]
  try dsimp only
  rw [if_neg hpend, hcs]
  exact ⟨rfl, rfl⟩

/-- C4 witness: an active-target count that changed from two to three aborts
the xaction with membership-changes. -/
theorem C4_membership_change_aborts_witness :
    (qcb c3S c4Smap 1000 10 1 100 true).1 = .aborted ∧
    (qcb c3S c4Smap 1000 10 1 100 true).2.abortedWith = some .membershipChanges :=
  C4_membership_change_aborts c3S c4Smap 1000 10 1 100 true (by decide)
    (by decide) (Or.inl (by decide))

/-- C6: a file whose modification time plus the dont-cleanup age window is
after the current time is skipped by the walk callback — nothing is removed
and nothing is queued into any removal category. -/
theorem C6_too_early_skips (env : ClnEnv) (ve : VisitEnv) (j : ClnJ)
    (fqn : String) (m : Int) (hfile : ve.isDir = false)
    (hstat : ve.lstatMtime = some m) (hearly : m + env.dontTime > env.now) :
    visit env ve j fqn = (j, []) := by
  unfold visit
  rw [hfile]
  simp only [Bool.false_eq_true, if_false]
  by_cases hd : env.done
  · simp [hd]
  · simp [hd, hstat, hearly]

/-- C6 witness: a young work file (mtime 995, window 10, now 1000) is left
untouched. -/
theorem C6_too_early_skips_witness :
    visit c5Env c6VE c5J "/mp1/work/b/w1" = (c5J, []) :=
  C6_too_early_skips c5Env c6VE c5J "/mp1/work/b/w1" 995 rfl rfl (by decide)

/-- C5: in an EC-enabled bucket, a visited EC metafile is queued for removal
exactly when neither the corresponding EC slice nor the object replica exists
on disk; when either exists the metafile is kept untouched.  (The hypothesis
keeps the old-work batch below the trigger so that queuing is observable in
the jogger state; a full batch removes the queued entries via `rmLeftovers`.) -/
theorem C5_ecmeta_stray_iff (env : ClnEnv) (cte : CTEnv) (j : ClnJ) (fqn : String)
    (hinit : cte.ctInitOk = true) (hec : cte.ecEnabled = true)
    (hb : j.oldWork.length + 1 < env.batchSize) :
    (cte.ecSliceExists = false → cte.ecObjExists = false →
      visitCT env cte j .ecMeta fqn = ({ j with oldWork := j.oldWork ++ [fqn] }, [])) ∧
    (visitCT env cte j .ecMeta fqn = (j, []) ↔
      (cte.ecSliceExists = true ∨ cte.ecObjExists = true)) := by
  have hred : visitCT env cte j .ecMeta fqn =
      (if ¬(cte.ctInitOk = true ∧ cte.ecEnabled = true) then
        rmAnyBatch env { j with oldWork := j.oldWork ++ [fqn] } flagRmOldWork
      else if cte.ecSliceExists = true then (j, [])
      else if cte.ecObjExists = true then (j, [])
      else rmAnyBatch env { j with oldWork := j.oldWork ++ [fqn] } flagRmOldWork) := rfl
  have hmain : cte.ecSliceExists = false → cte.ecObjExists = false →
      visitCT env cte j .ecMeta fqn = ({ j with oldWork := j.oldWork ++ [fqn] }, []) := by
    intro h1 h2
    rw [hred, if_neg (by simp [hinit, hec]), if_neg (by simp [h1]),
      if_neg (by simp [h2])]
    unfold rmAnyBatch
    rw [if_pos rfl]
    rw [if_pos (by simpa using hb)]
  refine ⟨hmain, ?_, ?_⟩
  · intro hres
    by_contra hcon
    rw [not_or] at hcon
    have h1 : cte.ecSliceExists = false := by
      cases h : cte.ecSliceExists
      · rfl
      · exact absurd h hcon.1
    have h2 : cte.ecObjExists = false := by
      cases h : cte.ecObjExists
      · rfl
      · exact absurd h hcon.2
    rw [hmain h1 h2] at hres
    have : j.oldWork ++ [fqn] = j.oldWork := congrArg (fun p => p.1.oldWork) hres
    have hlen := congrArg List.length this
    simp at hlen
  · intro hor
    rw [hred, if_neg (by simp [hinit, hec])]
    rcases hor with h | h
    · rw [if_pos h]
    · by_cases hs : cte.ecSliceExists = true
      · rw [if_pos hs]
      · rw [if_neg hs, if_pos h]

/-- C5 witness: a metafile with neither slice nor replica is queued; the same
metafile with a slice present is kept. -/
theorem C5_ecmeta_stray_iff_witness :
    visitCT c5Env c5CTE c5J .ecMeta "/mp1/ec-meta/b/o1" =
      ({ c5J with oldWork := ["/mp1/ec-meta/b/o1"] }, []) :=
  (C5_ecmeta_stray_iff c5Env c5CTE c5J "/mp1/ec-meta/b/o1" rfl rfl (by decide)).1
    rfl rfl

/-- C1 counterexample: the claim says that with `--force` the misplaced files
are removed even while a rebalance is running — but with `Force` set and the
rebalance marker showing a *running* rebalance, `rmLeftovers` drops its
queued misplaced object without removing anything. -/
theorem C1_counterexample :
    c1Env.force = true ∧ c1Env.g.running = true ∧ c1J.misLoms ≠ [] ∧
    rmLeftovers c1Env c1J flagRmMisplacedLOMs = ({ c1J with misLoms := [] }, []) := by
  refine ⟨rfl, rfl, by simp [c1J], ?_⟩
  rfl

/-- C1 (amended): misplaced *objects* are removed only when `rmMisplaced`
allows it, and `rmMisplaced` permits removal exactly in the all-clear case or,
with `--force`, when a rebalance was interrupted or the node restarted — never
while a rebalance or resilver is running, and not for an interrupted resilver;
misplaced *EC* files are removed without consulting the rebalance/resilver
markers at all (pass 3 only re-checks that the metafile is still absent). -/
theorem C1_misplaced_gate (env : ClnEnv) (j : ClnJ) (specifier : Nat) :
    (∀ fqn, ClnAct.rmMisObj fqn ∈ (rmLeftovers env j specifier).2 →
      rmMisplaced env.g env.l env.force = true) ∧
    (∀ g l force, rmMisplaced g l force = true ↔
      ((g.running = false ∧ l.running = false ∧ g.interrupted = false ∧
        g.restarted = false ∧ l.interrupted = false) ∨
       (force = true ∧ g.running = false ∧
        (g.interrupted = true ∨ (g.interrupted = false ∧ g.restarted = true))))) ∧
    (∀ g' l' f',
      rmLeftovers { env with g := g', l := l', force := f' } j flagRmMisplacedEC =
        rmLeftovers env j flagRmMisplacedEC) := by
  refine ⟨?_, ?_, ?_⟩
  · intro fqn hmem
    by_contra hgate
    unfold rmLeftovers at hmem
    split_ifs at hmem with h1
    all_goals
      rcases rmLeftoversLoms_acts hgate hmem with hin | ⟨f, hf⟩
    · obtain ⟨f, hf⟩ := rmOldPass_acts hin
      simp at hf
    · simp at hf
    · simp at hin
    · simp at hf
  · intro g l force
    cases g with
    | mk gr gi gs =>
      cases l with
      | mk lr li ls =>
        cases gr <;> cases gi <;> cases gs <;> cases lr <;> cases li <;>
          cases force <;> simp [rmMisplaced]
  · intro g' l' f'
    have key := rmECPass_markers env g' l' f' j.misEC
    unfold rmLeftovers rmLeftoversLoms rmLeftoversEC
    rw [key]
    rfl

/-- C1 amended-claim witness: in the all-clear state the gate opens. -/
theorem C1_misplaced_gate_witness :
    rmMisplaced clearMarked clearMarked false = true :=
  ((C1_misplaced_gate c1Env c1J 0).2.1 clearMarked clearMarked false).mpr
    (Or.inl (by decide))

/-- C2 counterexample: the claim says `dpq.parse` returns an error whenever
the query contains a key outside the supported datapath parameter list — yet
in a release build an unknown key `foo` parses fine, and even in a debug build
the exempt (known-but-unused) proxy-ID key parses fine. -/
theorem C2_fastparse_counterexample :
    parseOk (Dpq.parse false "foo=bar") = true ∧ "foo" ∉ dpqSupportedKeys ∧
    parseOk (Dpq.parse true (QparamProxyID ++ "=x")) = true ∧
    QparamProxyID ∉ dpqSupportedKeys := by
  refine ⟨rfl, by decide, rfl, by decide⟩

/-- C2 (amended): unknown keys on the fast path are fatal only in debug
builds — and even there the known-but-unused exempt keys (proxy-id,
dont-head-remote, S3 multipart/signature keys) are silently skipped; in a
release build `dpq.parse` never fails with an unknown-key error. -/
theorem C2_fastparse_unknown_keys (q : String) :
    ((∃ seg ∈ goSegs q, (keyEQvalL seg).1.asString ∉ dpqSupportedKeys ∧
        (keyEQvalL seg).1.asString ∉ dpqExemptKeys) →
      ∃ e, Dpq.parse true q = .error e) ∧
    (∀ k, Dpq.parse false q ≠ .error (.unknownKey k)) := by
  constructor
  · intro h
    exact dpqParseSegs_unknown_err (goSegs q) dpq0 h
  · intro k
    exact dpqParseSegs_release_ne_unknown (goSegs q) dpq0 k

/-- C2 amended-claim witness: the unknown key `foo` is fatal in a debug
build. -/
theorem C2_fastparse_unknown_keys_witness :
    ∃ e, Dpq.parse true "foo=bar" = .error e :=
  (C2_fastparse_unknown_keys "foo=bar").1
    ⟨"foo=bar".toList, by decide, by decide, by decide⟩

end AIS
